import Mathlib

/-!
Verification of the GenAI-Service-Desk RAG pipeline
(`src/core/rag_pipeline.py`), shallowly embedded in Lean 4.

Modelling conventions:
* Embedding vectors are integer lists (`Vec`); the sentence-transformer
  embedder is an abstract parameter `embed : String → Vec`, treated as the
  pure deterministic function the design requires.
* The faiss `IndexFlatL2` is a list of stored vectors; `search` performs
  exact squared-L2 k-nearest-neighbour selection, sorted ascending by
  distance with ties broken by smaller row, and pads the result with
  `(-1, floatMax)` entries when `k` exceeds the number of stored vectors,
  exactly as faiss does.
* Python list indexing (which accepts negative indices and raises
  `IndexError` out of range) is `pyGet`; a list comprehension that indexes
  is `pyMapGet`.  Attribute access on a never-assigned attribute raises
  `AttributeError`; the `self.index` attribute is `Option (Option FaissIndex)`
  (`none` = attribute unset, `some none` = attribute holds Python `None`).
* The remote Gemini endpoint is an abstract behaviour
  `endpoint : Nat → HttpResult` giving the outcome of each attempt;
  `requests.post` + status handling is `httpOk`, which succeeds exactly on
  status 200 as the source does.
* `time.sleep` is recorded in a `delays` trace; HTTP attempts are counted
  in `attempts`, so non-invocation of the generation client is observable.
-/

namespace RAGPipeline

/-- Embedding vectors: fixed-length numeric vectors, with integer
coordinates (the embedder is abstract, so nothing is lost). -/
abbrev Vec := List Int

/-- Squared Euclidean distance used by `faiss.IndexFlatL2`. -/
def sqDist (u v : Vec) : Int :=
  (List.zipWith (fun a b => (a - b) * (a - b)) u v).sum

/-- The faiss flat L2 index: the vectors added to it, in insertion order
(row `i` is the `i`-th added vector). -/
structure FaissIndex where
  vecs : List Vec
deriving Repr, DecidableEq

/-- Number of indexed vectors (`index.ntotal`). -/
def FaissIndex.ntotal (idx : FaissIndex) : Nat := idx.vecs.length

/-- Score every row against the query: row index paired with its squared
distance, rows numbered from `i`. -/
def scoreRows (q : Vec) : List Vec → Int → List (Int × Int)
  | [], _ => []
  | v :: vs, i => (i, sqDist q v) :: scoreRows q vs (i + 1)

/-- Insert a `(row, dist)` hit into a list sorted ascending by
`(dist, row)`. -/
def insertHit (a : Int × Int) : List (Int × Int) → List (Int × Int)
  | [] => [a]
  | b :: l =>
    if b.2 < a.2 ∨ (b.2 = a.2 ∧ b.1 < a.1) then b :: insertHit a l
    else a :: b :: l

/-- Sort hits ascending by distance, ties by smaller row index. -/
def sortHits : List (Int × Int) → List (Int × Int)
  | [] => []
  | a :: l => insertHit a (sortHits l)

/-- The sentinel distance faiss stores on padded entries (FLT_MAX). -/
def floatMax : Int := 340282346638528859811704183484516925440

/-- Faiss `index.search(q, k)`: the `k` nearest rows as `(row, dist)` pairs,
ascending by distance; when `k > ntotal`, faiss pads the result to length
`k` with `(-1, floatMax)` entries. -/
def FaissIndex.search (idx : FaissIndex) (q : Vec) (k : Nat) : List (Int × Int) :=
  let sorted := sortHits (scoreRows q idx.vecs 0)
  sorted.take k ++ List.replicate (k - sorted.length) (-1, floatMax)

/-- Python-level errors that the modelled code can raise. -/
inductive PyErr where
  | attributeError
  | indexError
deriving Repr, DecidableEq

/-- Python list indexing `xs[i]`: negative indices count from the end,
out-of-range access raises `IndexError`. -/
def pyGet (xs : List String) (i : Int) : Except PyErr String :=
  if 0 ≤ i then
    if i < (xs.length : Int) then Except.ok (xs.getD i.toNat "")
    else Except.error PyErr.indexError
  else
    if 0 ≤ (xs.length : Int) + i then
      Except.ok (xs.getD ((xs.length : Int) + i).toNat "")
    else Except.error PyErr.indexError

/-- A Python list comprehension `[xs[i] for i in rows]`: evaluates left to
right, propagating the first `IndexError`. -/
def pyMapGet (xs : List String) : List Int → Except PyErr (List String)
  | [] => Except.ok []
  | r :: l =>
    match pyGet xs r, pyMapGet xs l with
    | Except.ok v, Except.ok vs => Except.ok (v :: vs)
    | Except.error e, _ => Except.error e
    | Except.ok _, Except.error e => Except.error e

/-- The knowledge-base directory: `os.listdir` order plus file contents. -/
structure FileSystem where
  listing : List String
  content : String → String

/-- Character comparison by code point, as Python compares string chars. -/
def charLtB (a b : Char) : Bool := a.toNat < b.toNat

/-- Lexicographic comparison of character lists: Python string `<`. -/
def charListLt : List Char → List Char → Bool
  | _, [] => false
  | [], _ :: _ => true
  | a :: as, b :: bs =>
    if charLtB a b then true
    else if charLtB b a then false
    else charListLt as bs

/-- Python string comparison `a < b`: code-point lexicographic order. -/
def strLtB (a b : String) : Bool := charListLt a.data b.data

/-- Python `f.endswith(".txt")`. -/
def endsWithTxt (f : String) : Bool :=
  f.data.reverse.take 4 == ['t', 'x', 't', '.']

/-- Insert a string into a lexicographically sorted list (ascending). -/
def strInsert (s : String) : List String → List String
  | [] => [s]
  | t :: l => if strLtB t s then t :: strInsert s l else s :: t :: l

/-- Python `sorted` on strings: ascending lexicographic sort. -/
def strSort : List String → List String
  | [] => []
  | s :: l => strInsert s (strSort l)

/-- Model of `sorted([f for f in os.listdir(KNOWLEDGE_BASE_DIR) if f.endswith(".txt")])`. -/
def sortedTxtFiles (fs : FileSystem) : List String :=
  strSort (fs.listing.filter endsWithTxt)

/-- Model of `ServiceDeskRAG._load_documents`: reads each `.txt` file in sorted
filename order. -/
def loadDocuments (fs : FileSystem) : List String :=
  (sortedTxtFiles fs).map fs.content

/-- The mutable state of a `ServiceDeskRAG` object: the in-memory document
list, the `self.index` attribute (`none` = never assigned, `some none` =
assigned Python `None`, `some (some idx)` = a faiss index), and the current
knowledge-base directory. -/
structure RAGState where
  documents : List String
  indexAttr : Option (Option FaissIndex)
  fs : FileSystem

/-- Model of `ServiceDeskRAG._build_vector_store`: loads the documents; if none were
found it returns early (leaving `self.index` untouched), otherwise it embeds
them in order and builds the flat index. -/
def buildVectorStore (embed : String → Vec) (st : RAGState) : RAGState :=
  let docs := loadDocuments st.fs
  if docs.isEmpty then { st with documents := docs }
  else { st with
          documents := docs,
          indexAttr := some (some ⟨docs.map embed⟩) }

/-- The state of a freshly constructed object before `__init__` runs its
branches: `self.documents = []`, `self.index` never assigned. -/
def initialState (fs : FileSystem) : RAGState :=
  { documents := [], indexAttr := none, fs := fs }

/-- Model of `ServiceDeskRAG.__init__`: load persisted artifacts when both files
exist, otherwise build the vector store from the knowledge base. -/
def initRAG (embed : String → Vec) (persisted : Option (FaissIndex × List String))
    (fs : FileSystem) : RAGState :=
  match persisted with
  | some (idx, docs) => { documents := docs, indexAttr := some (some idx), fs := fs }
  | none => buildVectorStore embed (initialState fs)

/-- Model of `ServiceDeskRAG._retrieve_context`: embeds the query, searches the
index, then maps each returned row through the document list and through a
fresh sorted listing of the knowledge-base directory (`source_files` keeps
only rows with `i < len(source_filenames)`). -/
def retrieveContext (embed : String → Vec) (st : RAGState) (queryText : String)
    (k : Nat) : Except PyErr (List String × List String) :=
  match st.indexAttr with
  | none => Except.error PyErr.attributeError
  | some none => Except.ok ([], [])
  | some (some idx) =>
    let rows := (idx.search (embed queryText) k).map Prod.fst
    match pyMapGet st.documents rows with
    | Except.error e => Except.error e
    | Except.ok chunks =>
      let names := sortedTxtFiles st.fs
      match pyMapGet names (rows.filter (fun i => i < (names.length : Int))) with
      | Except.error e => Except.error e
      | Except.ok sources => Except.ok (chunks, sources)

/-- The text parts of one candidate in a Gemini response body: either the
expected `content.parts[0].text` structure or a malformed candidate whose
field access raises. -/
inductive Candidate where
  | wellFormed (text : String)
  | malformed
deriving Repr, DecidableEq

/-- A decoded 2xx JSON body: `candidates` is `none` when the key is absent
(also covering an empty-dict body, which is equally falsy in Python). -/
structure GenBody where
  candidates : Option (List Candidate)
deriving Repr, DecidableEq

/-- Python truthiness of `response and response.get("candidates")`. -/
def candTruthy (b : GenBody) : Bool :=
  match b.candidates with
  | some (_ :: _) => true
  | _ => false

/-- Outcome of one `requests.post` to the endpoint: a transport error
(raising `RequestException`) or an HTTP response with a status code. -/
inductive HttpResult where
  | networkError
  | response (status : Nat) (body : GenBody)
deriving Repr, DecidableEq

/-- The success test of one attempt: the source accepts exactly status 200
(`if response.status_code == 200: return response.json()`). -/
def httpOk : HttpResult → Option GenBody
  | HttpResult.networkError => none
  | HttpResult.response s body => if s = 200 then some body else none

/-- Observable outcome of `_call_gemini_with_backoff`: the returned value
(`None` when all retries were exhausted), the number of HTTP attempts made,
and the sequence of `time.sleep` delays in order. -/
structure BackoffResult where
  result : Option GenBody
  attempts : Nat
  delays : List Nat
deriving Repr, DecidableEq

/-- The retry loop of `_call_gemini_with_backoff`, with `n` iterations left,
current `delay`, and `i` attempts already made (the endpoint behaviour is
indexed by absolute attempt number).  On a 200 response the body is returned
at once; otherwise the loop sleeps `delay`, doubles it and retries. -/
def backoffLoop (endpoint : Nat → HttpResult) : Nat → Nat → Nat → BackoffResult
  | 0, _, _ => ⟨none, 0, []⟩
  | n + 1, delay, i =>
    match httpOk (endpoint i) with
    | some body => ⟨some body, 1, []⟩
    | none =>
      let rest := backoffLoop endpoint n (delay * 2) (i + 1)
      ⟨rest.result, rest.attempts + 1, delay :: rest.delays⟩

/-- Default `retries=5` of `_call_gemini_with_backoff`. -/
def defaultRetries : Nat := 5

/-- Default `delay=2` of `_call_gemini_with_backoff`. -/
def defaultDelay : Nat := 2

/-- Model of `_call_gemini_with_backoff(payload)` with its default parameters. -/
def callGeminiWithBackoff (endpoint : Nat → HttpResult) : BackoffResult :=
  backoffLoop endpoint defaultRetries defaultDelay 0

/-- The fixed refusal sentence returned when retrieval yields no chunks. -/
def noInfoMsg : String :=
  "I\x27m sorry, I could not find any relevant information."

/-- The degraded answer for a missing/invalid generation result. -/
def invalidResponseMsg : String :=
  "I\x27m sorry, I received an invalid response from the AI model."

/-- The degraded answer produced when answer extraction raises. -/
def generationErrorMsg : String :=
  "I\x27m sorry, I encountered an error while generating a response."

/-- The separator joining retrieved chunks into the context block. -/
def contextSeparator : String := "\n\n---\n\n"

/-- Observable outcome of `ServiceDeskRAG.query`: the returned
`(answer, sources)` pair (or the Python exception it raises), plus the
generation-client attempt count and sleep trace for that call. -/
structure QueryResult where
  result : Except PyErr (String × List String)
  genAttempts : Nat
  genDelays : List Nat

/-- The "3. Generate" block of `ServiceDeskRAG.query`: call the generation
client with backoff and normalise its outcome.  A `None`/falsy result or a
body without candidates degrades to `invalidResponseMsg`; a candidate whose
inner structure is malformed raises inside the `try` and is caught,
degrading to `generationErrorMsg`; all degraded answers carry `[]` sources,
only the success path returns the retrieved `sourceFiles`. -/
def generationOutcome (endpoint : Nat → HttpResult)
    (sourceFiles : List String) : QueryResult :=
  let br := callGeminiWithBackoff endpoint
  match br.result with
  | none => ⟨Except.ok (invalidResponseMsg, []), br.attempts, br.delays⟩
  | some body =>
    match body.candidates with
    | some (Candidate.wellFormed t :: _) =>
      ⟨Except.ok (t, sourceFiles), br.attempts, br.delays⟩
    | some (Candidate.malformed :: _) =>
      ⟨Except.ok (generationErrorMsg, []), br.attempts, br.delays⟩
    | _ => ⟨Except.ok (invalidResponseMsg, []), br.attempts, br.delays⟩

/-- Model of `ServiceDeskRAG.query`: retrieve with `k=1`; short-circuit with the
fixed refusal when no chunks came back; otherwise run the generation
block. -/
def query (embed : String → Vec) (endpoint : Nat → HttpResult) (st : RAGState)
    (userQuestion : String) : QueryResult :=
  match retrieveContext embed st userQuestion 1 with
  | Except.error e => ⟨Except.error e, 0, []⟩
  | Except.ok (contextChunks, sourceFiles) =>
    if contextChunks.isEmpty then ⟨Except.ok (noInfoMsg, []), 0, []⟩
    else generationOutcome endpoint sourceFiles

/-! ### Helper lemmas about the search structure -/

theorem scoreRows_length (q : Vec) (vs : List Vec) (i : Int) :
    (scoreRows q vs i).length = vs.length := by
  induction vs generalizing i with
  | nil => simp [scoreRows]
  | cons v t ih => simp [scoreRows, ih]

theorem scoreRows_mem {q : Vec} {vs : List Vec} {i : Int} {p : Int × Int}
    (h : p ∈ scoreRows q vs i) : i ≤ p.1 ∧ p.1 < i + vs.length := by
  induction vs generalizing i with
  | nil => simp [scoreRows] at h
  | cons v t ih =>
    simp only [scoreRows, List.mem_cons] at h
    rcases h with h | h
    · subst h
      constructor
      · exact le_refl i
      · have : (0 : Int) < (t.length : Int) + 1 := by positivity
        simp only [List.length_cons]
        push_cast
        omega
    · have := ih h
      simp only [List.length_cons]
      push_cast
      push_cast at this
      omega

theorem insertHit_length (a : Int × Int) (l : List (Int × Int)) :
    (insertHit a l).length = l.length + 1 := by
  induction l with
  | nil => simp [insertHit]
  | cons b t ih =>
    simp only [insertHit]
    split
    · simp [ih]
    · simp

theorem insertHit_mem {a x : Int × Int} {l : List (Int × Int)}
    (h : x ∈ insertHit a l) : x = a ∨ x ∈ l := by
  induction l with
  | nil => simpa [insertHit] using h
  | cons b t ih =>
    simp only [insertHit] at h
    split at h
    · rcases List.mem_cons.mp h with h | h
      · exact Or.inr (List.mem_cons.mpr (Or.inl h))
      · rcases ih h with h | h
        · exact Or.inl h
        · exact Or.inr (List.mem_cons.mpr (Or.inr h))
    · rcases List.mem_cons.mp h with h | h
      · exact Or.inl h
      · exact Or.inr h

theorem sortHits_length (l : List (Int × Int)) :
    (sortHits l).length = l.length := by
  induction l with
  | nil => simp [sortHits]
  | cons a t ih => simp [sortHits, insertHit_length, ih]

theorem sortHits_mem {x : Int × Int} {l : List (Int × Int)}
    (h : x ∈ sortHits l) : x ∈ l := by
  induction l with
  | nil => simp [sortHits] at h
  | cons a t ih =>
    simp only [sortHits] at h
    rcases insertHit_mem h with h | h
    · exact List.mem_cons.mpr (Or.inl h)
    · exact List.mem_cons.mpr (Or.inr (ih h))

theorem search_length (idx : FaissIndex) (q : Vec) (k : Nat) :
    (idx.search q k).length = k := by
  simp only [FaissIndex.search, List.length_append, List.length_take,
    List.length_replicate, sortHits_length, scoreRows_length]
  omega

theorem search_mem_range {idx : FaissIndex} {q : Vec} {k : Nat}
    (hk : k ≤ idx.ntotal) {p : Int × Int} (hp : p ∈ idx.search q k) :
    0 ≤ p.1 ∧ p.1 < (idx.ntotal : Int) := by
  have hlen : (sortHits (scoreRows q idx.vecs 0)).length = idx.ntotal := by
    simp [sortHits_length, scoreRows_length, FaissIndex.ntotal]
  have hrep : k - (sortHits (scoreRows q idx.vecs 0)).length = 0 := by omega
  simp only [FaissIndex.search, hrep, List.replicate_zero, List.append_nil] at hp
  have hmem : p ∈ sortHits (scoreRows q idx.vecs 0) := List.take_subset _ _ hp
  have := scoreRows_mem (sortHits_mem hmem)
  simpa [FaissIndex.ntotal] using this

/-! ### Helper lemmas about Python indexing -/

theorem pyGet_ok {xs : List String} {r : Int} (h0 : 0 ≤ r)
    (h1 : r < (xs.length : Int)) :
    pyGet xs r = Except.ok (xs.getD r.toNat "") := by
  simp [pyGet, h0, h1]

theorem pyMapGet_eq_map {xs : List String} {rows : List Int}
    (h : ∀ r ∈ rows, 0 ≤ r ∧ r < (xs.length : Int)) :
    pyMapGet xs rows = Except.ok (rows.map (fun r => xs.getD r.toNat "")) := by
  induction rows with
  | nil => simp [pyMapGet]
  | cons r t ih =>
    have hr := h r (List.mem_cons.mpr (Or.inl rfl))
    have ht : ∀ x ∈ t, 0 ≤ x ∧ x < (xs.length : Int) := fun x hx =>
      h x (List.mem_cons.mpr (Or.inr hx))
    simp [pyMapGet, pyGet_ok hr.1 hr.2, ih ht]

theorem pyMapGet_length {xs : List String} {rows : List Int} {out : List String}
    (h : pyMapGet xs rows = Except.ok out) : out.length = rows.length := by
  induction rows generalizing out with
  | nil =>
    simp only [pyMapGet] at h
    cases h
    rfl
  | cons r t ih =>
    simp only [pyMapGet] at h
    cases hg : pyGet xs r with
    | error e => rw [hg] at h; cases h
    | ok v =>
      rw [hg] at h
      cases hm : pyMapGet xs t with
      | error e => rw [hm] at h; cases h
      | ok vs =>
        rw [hm] at h
        cases h
        simp [ih hm]

/-! ### Characterization of retrieval on a well-formed state -/

theorem retrieveContext_char (embed : String → Vec) (st : RAGState)
    (q : String) (k : Nat) (idx : FaissIndex)
    (hattr : st.indexAttr = some (some idx))
    (hlen : st.documents.length = idx.ntotal)
    (hk : k ≤ idx.ntotal) :
    retrieveContext embed st q k =
      Except.ok
        (((idx.search (embed q) k).map Prod.fst).map
            (fun r => st.documents.getD r.toNat ""),
          (((idx.search (embed q) k).map Prod.fst).filter
              (fun r => r < ((sortedTxtFiles st.fs).length : Int))).map
            (fun r => (sortedTxtFiles st.fs).getD r.toNat "")) := by
  have hrows : ∀ r ∈ (idx.search (embed q) k).map Prod.fst,
      0 ≤ r ∧ r < (idx.ntotal : Int) := by
    intro r hr
    rcases List.mem_map.mp hr with ⟨p, hp, hpr⟩
    rw [← hpr]
    exact search_mem_range hk hp
  have hchunks : pyMapGet st.documents ((idx.search (embed q) k).map Prod.fst) =
      Except.ok (((idx.search (embed q) k).map Prod.fst).map
        (fun r => st.documents.getD r.toNat "")) := by
    apply pyMapGet_eq_map
    intro r hr
    have := hrows r hr
    rw [hlen]
    exact this
  have hsources : pyMapGet (sortedTxtFiles st.fs)
      (((idx.search (embed q) k).map Prod.fst).filter
        (fun r => r < ((sortedTxtFiles st.fs).length : Int))) =
      Except.ok ((((idx.search (embed q) k).map Prod.fst).filter
          (fun r => r < ((sortedTxtFiles st.fs).length : Int))).map
        (fun r => (sortedTxtFiles st.fs).getD r.toNat "")) := by
    apply pyMapGet_eq_map
    intro r hr
    have hmem := List.mem_filter.mp hr
    refine ⟨(hrows r hmem.1).1, ?_⟩
    exact of_decide_eq_true hmem.2
  unfold retrieveContext
  rw [hattr]
  simp only [hchunks, hsources]

/-! ### Helper lemmas about the retry loop -/

theorem backoffLoop_fail {endpoint : Nat → HttpResult} {i : Nat}
    (h : httpOk (endpoint i) = none) (n delay : Nat) :
    backoffLoop endpoint (n + 1) delay i =
      ⟨(backoffLoop endpoint n (delay * 2) (i + 1)).result,
        (backoffLoop endpoint n (delay * 2) (i + 1)).attempts + 1,
        delay :: (backoffLoop endpoint n (delay * 2) (i + 1)).delays⟩ := by
  simp [backoffLoop, h]

theorem backoffLoop_ok {endpoint : Nat → HttpResult} {i : Nat} {body : GenBody}
    (h : httpOk (endpoint i) = some body) (n delay : Nat) :
    backoffLoop endpoint (n + 1) delay i = ⟨some body, 1, []⟩ := by
  simp [backoffLoop, h]

theorem backoffLoop_attempts_le (endpoint : Nat → HttpResult) :
    ∀ (n delay i : Nat), (backoffLoop endpoint n delay i).attempts ≤ n := by
  intro n
  induction n with
  | zero => intro delay i; simp [backoffLoop]
  | succ m ih =>
    intro delay i
    cases h : httpOk (endpoint i) with
    | none =>
      rw [backoffLoop_fail h]
      have := ih (delay * 2) (i + 1)
      simpa using Nat.succ_le_succ this
    | some body =>
      rw [backoffLoop_ok h]
      simp

theorem backoffLoop_delays_geometric (endpoint : Nat → HttpResult) :
    ∀ (n delay i : Nat), ∃ m,
      (backoffLoop endpoint n delay i).delays =
        (List.range m).map (fun j => delay * 2 ^ j) := by
  intro n
  induction n with
  | zero =>
    intro delay i
    exact ⟨0, by simp [backoffLoop]⟩
  | succ m ih =>
    intro delay i
    cases h : httpOk (endpoint i) with
    | none =>
      rcases ih (delay * 2) (i + 1) with ⟨m', hm'⟩
      refine ⟨m' + 1, ?_⟩
      rw [backoffLoop_fail h, hm']
      simp only [List.range_succ_eq_map, List.map_cons, List.map_map, pow_zero,
        mul_one, List.cons.injEq, true_and]
      apply List.map_congr_left
      intro j _
      simp only [Function.comp_apply, pow_succ]
      ring
    | some body =>
      exact ⟨0, by rw [backoffLoop_ok h]; simp⟩

/-- Inversion of a successful retrieval: both list comprehensions of
`_retrieve_context` succeeded and produced the two returned lists. -/
theorem retrieveContext_ok_inv {embed : String → Vec} {st : RAGState}
    {q : String} {k : Nat} {idx : FaissIndex} {chunks sources : List String}
    (hattr : st.indexAttr = some (some idx))
    (hok : retrieveContext embed st q k = Except.ok (chunks, sources)) :
    pyMapGet st.documents ((idx.search (embed q) k).map Prod.fst) =
      Except.ok chunks ∧
    pyMapGet (sortedTxtFiles st.fs)
      (((idx.search (embed q) k).map Prod.fst).filter
        (fun i => i < ((sortedTxtFiles st.fs).length : Int))) =
      Except.ok sources := by
  unfold retrieveContext at hok
  rw [hattr] at hok
  dsimp only at hok
  cases hc : pyMapGet st.documents ((idx.search (embed q) k).map Prod.fst) with
  | error e => rw [hc] at hok; cases hok
  | ok c =>
    rw [hc] at hok
    cases hs : pyMapGet (sortedTxtFiles st.fs)
        (((idx.search (embed q) k).map Prod.fst).filter
          (fun i => i < ((sortedTxtFiles st.fs).length : Int))) with
    | error e => rw [hs] at hok; cases hok
    | ok s =>
      rw [hs] at hok
      dsimp only at hok
      rw [Except.ok.injEq, Prod.mk.injEq] at hok
      obtain ⟨h1, h2⟩ := hok
      subst h1
      subst h2
      exact ⟨rfl, rfl⟩

/-- Characterization of `query` on a state whose index attribute holds an
index aligned in length with the document list: the call reaches the
generation block, handing it the sources computed from the current
directory listing. -/
theorem query_char (embed : String → Vec) (endpoint : Nat → HttpResult)
    (st : RAGState) (q : String) (idx : FaissIndex)
    (hattr : st.indexAttr = some (some idx))
    (hlen : st.documents.length = idx.ntotal)
    (hN : 1 ≤ idx.ntotal) :
    query embed endpoint st q =
      generationOutcome endpoint
        ((((idx.search (embed q) 1).map Prod.fst).filter
            (fun r => r < ((sortedTxtFiles st.fs).length : Int))).map
          (fun r => (sortedTxtFiles st.fs).getD r.toNat "")) := by
  unfold query
  rw [retrieveContext_char embed st q 1 idx hattr hlen hN]
  have hlen1 : ((idx.search (embed q) 1).map Prod.fst).length = 1 := by
    simp [search_length]
  rcases List.length_eq_one.mp hlen1 with ⟨r, hr⟩
  rw [hr]
  rfl

/-! ### Claim theorems -/

/-- Claim C1 (code bug witnessed): with an empty corpus (no `.txt` files and
no persisted artifacts), `__init__` never assigns `self.index` — the build
step returns early — so the first retrieval raises `AttributeError` instead
of returning the two empty sequences the specification promises. -/
theorem emptyCorpusRaisesAttributeError (embed : String → Vec) (q : String)
    (k : Nat) :
    retrieveContext embed (initRAG embed none ⟨[], fun _ => ""⟩) q k =
      Except.error PyErr.attributeError := rfl

/-- Claim C2 (counterexample): with one indexed vector and `k = 2`, faiss
pads the search result to length 2 with a `(-1, floatMax)` entry — not
`min(k, N) = 1` hits — and the padded row propagates through Python
negative indexing into duplicated chunk and source entries. -/
theorem searchPaddingPropagates :
    (FaissIndex.search ⟨[[0]]⟩ [0] 2).length = 2 ∧
    (FaissIndex.search ⟨[[0]]⟩ [0] 2).length ≠ min 2 (FaissIndex.ntotal ⟨[[0]]⟩) ∧
    FaissIndex.search ⟨[[0]]⟩ [0] 2 = [(0, 0), (-1, floatMax)] ∧
    retrieveContext (fun _ => [0])
        ⟨["A"], some (some ⟨[[0]]⟩), ⟨["a.txt"], fun _ => "A"⟩⟩ "q" 2 =
      Except.ok (["A", "A"], ["a.txt", "a.txt"]) :=
  ⟨rfl, by decide, rfl, rfl⟩

/-- Claim C2 (amended): for every `k ≤ N`, searching the index returns
exactly `min(k, N)` hits, each with a genuine row index in `[0, N)` —
no padding entry is produced. -/
theorem searchReturnsMinOfLe (idx : FaissIndex) (q : Vec) (k : Nat)
    (hk : k ≤ idx.ntotal) :
    (idx.search q k).length = min k idx.ntotal ∧
    ∀ p ∈ idx.search q k, 0 ≤ p.1 ∧ p.1 < (idx.ntotal : Int) := by
  refine ⟨?_, fun p hp => search_mem_range hk hp⟩
  rw [search_length]
  omega

/-- Witness for C2 (amended) at a one-vector index with `k = 1`. -/
theorem searchReturnsMinOfLeWitness :
    (FaissIndex.search ⟨[[0]]⟩ [0] 1).length = min 1 (FaissIndex.ntotal ⟨[[0]]⟩) ∧
    ∀ p ∈ FaissIndex.search ⟨[[0]]⟩ [0] 1,
      0 ≤ p.1 ∧ p.1 < ((FaissIndex.ntotal ⟨[[0]]⟩) : Int) :=
  searchReturnsMinOfLe ⟨[[0]]⟩ [0] 1 (by decide)

/-- Claim C3: after a fresh build, the document list is the sorted filename
listing mapped through file contents, index row `i` is the embedding of
document `i`, and retrieval maps each returned row `r` through the document
list and the sorted filename listing using the same `r` — the chunk list
and source list are the same row sequence mapped through the two aligned
collections. -/
theorem retrievalPositionalAlignment (embed : String → Vec) (fs : FileSystem)
    (q : String) (k : Nat) (idx : FaissIndex)
    (hidx : (buildVectorStore embed (initialState fs)).indexAttr =
      some (some idx))
    (hk : k ≤ idx.ntotal) :
    (buildVectorStore embed (initialState fs)).documents =
        (sortedTxtFiles fs).map fs.content ∧
    idx.vecs = (buildVectorStore embed (initialState fs)).documents.map embed ∧
    retrieveContext embed (buildVectorStore embed (initialState fs)) q k =
      Except.ok
        (((idx.search (embed q) k).map Prod.fst).map
            (fun r =>
              (buildVectorStore embed (initialState fs)).documents.getD
                r.toNat ""),
          ((idx.search (embed q) k).map Prod.fst).map
            (fun r => (sortedTxtFiles fs).getD r.toNat "")) ∧
    ((idx.search (embed q) k).map Prod.fst).length = k ∧
    (∀ r ∈ (idx.search (embed q) k).map Prod.fst,
        0 ≤ r ∧ r.toNat < (sortedTxtFiles fs).length) := by
  by_cases hemp : (loadDocuments fs).isEmpty
  · exfalso
    simp [buildVectorStore, initialState, hemp] at hidx
  · have hst : buildVectorStore embed (initialState fs) =
        ⟨loadDocuments fs, some (some ⟨(loadDocuments fs).map embed⟩), fs⟩ := by
      simp [buildVectorStore, initialState, hemp]
    have hveq : idx = ⟨(loadDocuments fs).map embed⟩ := by
      rw [hst] at hidx
      simp only [Option.some.injEq] at hidx
      exact hidx.symm
    have hnames : (sortedTxtFiles fs).length = idx.ntotal := by
      rw [hveq]
      simp [FaissIndex.ntotal, loadDocuments]
    have hrange : ∀ r ∈ (idx.search (embed q) k).map Prod.fst,
        0 ≤ r ∧ r < (idx.ntotal : Int) := by
      intro r hr
      rcases List.mem_map.mp hr with ⟨p, hp, hpr⟩
      rw [← hpr]
      exact search_mem_range hk hp
    refine ⟨?_, ?_, ?_, ?_, ?_⟩
    · rw [hst]
      exact rfl
    · rw [hveq, hst]
    · have hchar := retrieveContext_char embed
        (buildVectorStore embed (initialState fs)) q k idx
        (by rw [hst, hveq]) (by rw [hst, hveq]; simp [FaissIndex.ntotal]) hk
      rw [hchar]
      have hfsq : (buildVectorStore embed (initialState fs)).fs = fs := by
        rw [hst]
      rw [hfsq]
      have hfil : ((idx.search (embed q) k).map Prod.fst).filter
            (fun r => r < ((sortedTxtFiles fs).length : Int)) =
          (idx.search (embed q) k).map Prod.fst := by
        apply List.filter_eq_self.mpr
        intro r hr
        have := hrange r hr
        simp only [decide_eq_true_eq]
        rw [hnames]
        exact this.2
      rw [hfil]
    · simp [search_length]
    · intro r hr
      have := hrange r hr
      constructor
      · exact this.1
      · rw [hnames]
        omega

/-- Witness for C3: a two-file corpus where the query nearest to the second
document retrieves chunk and source from the same row. -/
theorem retrievalPositionalAlignmentWitness :
    retrieveContext (fun s => if s = "alpha" then [0] else [1])
        (buildVectorStore (fun s => if s = "alpha" then [0] else [1])
          (initialState ⟨["b.txt", "a.txt"],
            fun n => if n = "a.txt" then "alpha" else "beta"⟩))
        "which" 1 =
      Except.ok (["beta"], ["b.txt"]) := by
  rw [(retrievalPositionalAlignment (fun s => if s = "alpha" then [0] else [1])
      ⟨["b.txt", "a.txt"], fun n => if n = "a.txt" then "alpha" else "beta"⟩
      "which" 1 ⟨[[0], [1]]⟩ rfl (by decide)).2.2.1]
  rfl

/-- Claim C4: whenever retrieval returns no chunks, `query` returns the
exact fixed refusal sentence with an empty source list, and the generation
client is never invoked (zero HTTP attempts, zero sleeps). -/
theorem emptyRetrievalShortCircuits (embed : String → Vec)
    (endpoint : Nat → HttpResult) (st : RAGState) (q : String)
    (sources : List String)
    (h : retrieveContext embed st q 1 = Except.ok ([], sources)) :
    query embed endpoint st q = ⟨Except.ok (noInfoMsg, []), 0, []⟩ := by
  unfold query
  rw [h]
  rfl

/-- Witness for C4 on a state whose index attribute holds `None`. -/
theorem emptyRetrievalShortCircuitsWitness :
    query (fun _ => []) (fun _ => HttpResult.networkError)
        ⟨[], some none, ⟨[], fun _ => ""⟩⟩ "any question" =
      ⟨Except.ok (noInfoMsg, []), 0, []⟩ :=
  emptyRetrievalShortCircuits _ _ _ _ [] rfl

/-- Claim C5: the retry loop makes at most the configured number of
attempts, its sleep trace is always `d, 2d, 4d, ...` doubling from the
initial delay, and against an endpoint failing twice then answering 200,
it returns the success body after exactly 3 attempts with delays `d, 2d`. -/
theorem backoffStateMachine (endpoint : Nat → HttpResult) (r d : Nat)
    (body : GenBody)
    (h0 : httpOk (endpoint 0) = none) (h1 : httpOk (endpoint 1) = none)
    (h2 : endpoint 2 = HttpResult.response 200 body) :
    backoffLoop endpoint (r + 3) d 0 = ⟨some body, 3, [d, d * 2]⟩ ∧
    (∀ n delay i, (backoffLoop endpoint n delay i).attempts ≤ n) ∧
    (∀ n delay i, ∃ m, (backoffLoop endpoint n delay i).delays =
      (List.range m).map (fun j => delay * 2 ^ j)) := by
  refine ⟨?_, backoffLoop_attempts_le endpoint,
    backoffLoop_delays_geometric endpoint⟩
  have h2' : httpOk (endpoint 2) = some body := by simp [h2, httpOk]
  have hr3 : r + 3 = r + 2 + 1 := by omega
  have hr2 : r + 2 = r + 1 + 1 := by omega
  rw [hr3, backoffLoop_fail h0]
  norm_num
  rw [hr2, backoffLoop_fail h1]
  norm_num
  rw [backoffLoop_ok h2']
  simp

/-- Witness for C5: two network failures then a 200, with the default
initial delay. -/
theorem backoffStateMachineWitness :
    backoffLoop
        (fun i => if i = 2 then
            HttpResult.response 200 ⟨some [Candidate.wellFormed "ok"]⟩
          else HttpResult.networkError) (2 + 3) 2 0 =
      ⟨some ⟨some [Candidate.wellFormed "ok"]⟩, 3, [2, 2 * 2]⟩ ∧
    (∀ n delay i, (backoffLoop
        (fun i => if i = 2 then
            HttpResult.response 200 ⟨some [Candidate.wellFormed "ok"]⟩
          else HttpResult.networkError) n delay i).attempts ≤ n) ∧
    (∀ n delay i, ∃ m, (backoffLoop
        (fun i => if i = 2 then
            HttpResult.response 200 ⟨some [Candidate.wellFormed "ok"]⟩
          else HttpResult.networkError) n delay i).delays =
      (List.range m).map (fun j => delay * 2 ^ j)) :=
  backoffStateMachine _ 2 2 _ rfl rfl rfl

/-- Claim C6: on a loaded state whose index holds at least one vector and
whose document list matches the index row count, `query` returns a valid
`(answer, sources)` pair for every endpoint behaviour — it never raises —
and the answer is either a canned degraded text or the first well-formed
candidate text of a successful generation. -/
theorem queryNeverRaises (embed : String → Vec) (endpoint : Nat → HttpResult)
    (st : RAGState) (q : String) (idx : FaissIndex)
    (hattr : st.indexAttr = some (some idx))
    (hlen : st.documents.length = idx.ntotal)
    (hN : 1 ≤ idx.ntotal) :
    ∃ answer sources,
      (query embed endpoint st q).result = Except.ok (answer, sources) ∧
      (answer = invalidResponseMsg ∨ answer = generationErrorMsg ∨
        ∃ body t rest, (callGeminiWithBackoff endpoint).result = some body ∧
          body.candidates = some (Candidate.wellFormed t :: rest) ∧
          answer = t) := by
  rw [query_char embed endpoint st q idx hattr hlen hN]
  cases hbr : (callGeminiWithBackoff endpoint).result with
  | none =>
    exact ⟨invalidResponseMsg, [], by simp [generationOutcome, hbr], Or.inl rfl⟩
  | some body =>
    cases hc : body.candidates with
    | none =>
      exact ⟨invalidResponseMsg, [],
        by simp [generationOutcome, hbr, hc], Or.inl rfl⟩
    | some cs =>
      cases cs with
      | nil =>
        exact ⟨invalidResponseMsg, [],
          by simp [generationOutcome, hbr, hc], Or.inl rfl⟩
      | cons c rest =>
        cases c with
        | wellFormed t =>
          refine ⟨t, (((idx.search (embed q) 1).map Prod.fst).filter
              (fun r => r < ((sortedTxtFiles st.fs).length : Int))).map
            (fun r => (sortedTxtFiles st.fs).getD r.toNat ""), ?_,
            Or.inr (Or.inr ⟨body, t, rest, rfl, hc, rfl⟩)⟩
          simp [generationOutcome, hbr, hc]
        | malformed =>
          exact ⟨generationErrorMsg, [],
            by simp [generationOutcome, hbr, hc], Or.inr (Or.inl rfl)⟩

/-- Witness for C6 against an endpoint that always fails at transport. -/
theorem queryNeverRaisesWitness :
    ∃ answer sources,
      (query (fun _ => [0]) (fun _ => HttpResult.networkError)
          ⟨["A"], some (some ⟨[[0]]⟩), ⟨["a.txt"], fun _ => "A"⟩⟩ "q").result =
        Except.ok (answer, sources) ∧
      (answer = invalidResponseMsg ∨ answer = generationErrorMsg ∨
        ∃ body t rest,
          (callGeminiWithBackoff (fun _ => HttpResult.networkError)).result =
            some body ∧
          body.candidates = some (Candidate.wellFormed t :: rest) ∧
          answer = t) :=
  queryNeverRaises (fun _ => [0]) (fun _ => HttpResult.networkError)
    ⟨["A"], some (some ⟨[[0]]⟩), ⟨["a.txt"], fun _ => "A"⟩⟩ "q" ⟨[[0]]⟩
    rfl rfl (by decide)

/-- Claim C7 (counterexample): an attempt answered with status 201 — a 2xx
response, here with a malformed body — is retried: a second attempt is
made, refuting the claim that any 2xx response is terminal. -/
theorem non200ResponseRetried :
    (fun i => if i = 0 then HttpResult.response 201 ⟨none⟩
      else HttpResult.response 200 ⟨some [Candidate.wellFormed "ok"]⟩) 0 =
      HttpResult.response 201 ⟨none⟩ ∧
    callGeminiWithBackoff
        (fun i => if i = 0 then HttpResult.response 201 ⟨none⟩
          else HttpResult.response 200 ⟨some [Candidate.wellFormed "ok"]⟩) =
      ⟨some ⟨some [Candidate.wellFormed "ok"]⟩, 2, [2]⟩ ∧
    (callGeminiWithBackoff
        (fun i => if i = 0 then HttpResult.response 201 ⟨none⟩
          else HttpResult.response 200 ⟨some [Candidate.wellFormed "ok"]⟩)).attempts ≠ 1 :=
  ⟨rfl, rfl, by decide⟩

/-- Claim C7 (amended): retries are triggered exactly by transport errors
or non-200 statuses; an attempt answered with status 200 is terminal
whatever its body, and a 200 body without candidates is converted directly
into the degraded answer after that single attempt. -/
theorem retryOnlyOnNon200 :
    (∀ (endpoint : Nat → HttpResult) (n delay i : Nat) (body : GenBody),
      endpoint i = HttpResult.response 200 body →
      backoffLoop endpoint (n + 1) delay i = ⟨some body, 1, []⟩) ∧
    (∀ (embed : String → Vec) (endpoint : Nat → HttpResult) (st : RAGState)
      (q : String) (idx : FaissIndex) (body : GenBody),
      st.indexAttr = some (some idx) →
      st.documents.length = idx.ntotal →
      1 ≤ idx.ntotal →
      endpoint 0 = HttpResult.response 200 body →
      candTruthy body = false →
      (query embed endpoint st q).genAttempts = 1 ∧
      (query embed endpoint st q).result =
        Except.ok (invalidResponseMsg, [])) := by
  have hterm : ∀ (endpoint : Nat → HttpResult) (n delay i : Nat)
      (body : GenBody), endpoint i = HttpResult.response 200 body →
      backoffLoop endpoint (n + 1) delay i = ⟨some body, 1, []⟩ := by
    intro endpoint n delay i body h
    have h' : httpOk (endpoint i) = some body := by simp [h, httpOk]
    exact backoffLoop_ok h' n delay
  refine ⟨hterm, ?_⟩
  intro embed endpoint st q idx body hattr hlen hN h200 hct
  have hcall : callGeminiWithBackoff endpoint = ⟨some body, 1, []⟩ :=
    hterm endpoint 4 2 0 body h200
  rw [query_char embed endpoint st q idx hattr hlen hN]
  cases hc : body.candidates with
  | none => simp [generationOutcome, hcall, hc]
  | some cs =>
    cases cs with
    | nil => simp [generationOutcome, hcall, hc]
    | cons c rest => simp [candTruthy, hc] at hct

/-- Witness for C7 (amended): a single 200 response with a candidate-free
body is terminal and degrades without retrying. -/
theorem retryOnlyOnNon200Witness :
    backoffLoop (fun _ => HttpResult.response 200 ⟨none⟩) (0 + 1) 2 0 =
      ⟨some ⟨none⟩, 1, []⟩ ∧
    ((query (fun _ => [0]) (fun _ => HttpResult.response 200 ⟨none⟩)
        ⟨["A"], some (some ⟨[[0]]⟩), ⟨["a.txt"], fun _ => "A"⟩⟩
        "q").genAttempts = 1 ∧
      (query (fun _ => [0]) (fun _ => HttpResult.response 200 ⟨none⟩)
        ⟨["A"], some (some ⟨[[0]]⟩), ⟨["a.txt"], fun _ => "A"⟩⟩
        "q").result = Except.ok (invalidResponseMsg, [])) :=
  ⟨retryOnlyOnNon200.1 (fun _ => HttpResult.response 200 ⟨none⟩) 0 2 0
      ⟨none⟩ rfl,
    retryOnlyOnNon200.2 (fun _ => [0]) (fun _ => HttpResult.response 200 ⟨none⟩)
      ⟨["A"], some (some ⟨[[0]]⟩), ⟨["a.txt"], fun _ => "A"⟩⟩ "q" ⟨[[0]]⟩
      ⟨none⟩ rfl rfl (by decide) rfl rfl⟩

/-- Claim C8 (counterexample): when the search returns a row not smaller
than the filename-list length, the bounds filter drops it from the source
list but not from the chunk list, so the two sequences returned by
retrieval have different lengths. -/
theorem sourceBoundsFilterCounterexample :
    retrieveContext (fun _ => [1])
        ⟨["A", "B"], some (some ⟨[[0], [1]]⟩), ⟨["a.txt"], fun _ => ""⟩⟩ "q" 1 =
      Except.ok (["B"], []) ∧
    (["B"] : List String).length ≠ ([] : List String).length :=
  ⟨rfl, by decide⟩

/-- Claim C8 (amended): whenever every searched row index is smaller than
the filename-list length — in particular whenever the directory listing
matches the indexed corpus — the chunk list and the source list returned by
a successful retrieval have equal length. -/
theorem retrievalLengthsMatchOfInRange (embed : String → Vec) (st : RAGState)
    (q : String) (k : Nat) (idx : FaissIndex) (chunks sources : List String)
    (hattr : st.indexAttr = some (some idx))
    (hok : retrieveContext embed st q k = Except.ok (chunks, sources))
    (hin : ∀ p ∈ idx.search (embed q) k,
      p.1 < ((sortedTxtFiles st.fs).length : Int)) :
    chunks.length = sources.length := by
  obtain ⟨hc, hs⟩ := retrieveContext_ok_inv hattr hok
  have hfil : ((idx.search (embed q) k).map Prod.fst).filter
      (fun i => i < ((sortedTxtFiles st.fs).length : Int)) =
      (idx.search (embed q) k).map Prod.fst := by
    apply List.filter_eq_self.mpr
    intro r hr
    rcases List.mem_map.mp hr with ⟨p, hp, hpr⟩
    simp only [decide_eq_true_eq]
    rw [← hpr]
    exact hin p hp
  rw [hfil] at hs
  rw [pyMapGet_length hc, pyMapGet_length hs]

/-- Witness for C8 (amended) on an aligned one-file corpus. -/
theorem retrievalLengthsMatchOfInRangeWitness :
    (["A"] : List String).length = (["a.txt"] : List String).length :=
  retrievalLengthsMatchOfInRange (fun _ => [0])
    ⟨["A"], some (some ⟨[[0]]⟩), ⟨["a.txt"], fun _ => "A"⟩⟩ "q" 1 ⟨[[0]]⟩
    ["A"] ["a.txt"] rfl rfl (by decide)

/-- Claim C9: whenever generation fails — retries exhausted, or a 200 body
whose candidates field is missing or empty — `query` returns the degraded
answer with an empty source list, discarding the retrieved sources; a
non-empty source list is only ever returned together with the text of a
well-formed first candidate. -/
theorem generationFailureDiscardsSources (embed : String → Vec)
    (endpoint : Nat → HttpResult) (st : RAGState) (q : String)
    (idx : FaissIndex)
    (hattr : st.indexAttr = some (some idx))
    (hlen : st.documents.length = idx.ntotal)
    (hN : 1 ≤ idx.ntotal) :
    ((callGeminiWithBackoff endpoint).result = none →
      (query embed endpoint st q).result =
        Except.ok (invalidResponseMsg, [])) ∧
    (∀ body, (callGeminiWithBackoff endpoint).result = some body →
      candTruthy body = false →
      (query embed endpoint st q).result =
        Except.ok (invalidResponseMsg, [])) ∧
    (∀ answer sources,
      (query embed endpoint st q).result = Except.ok (answer, sources) →
      sources ≠ [] →
      ∃ body t rest, (callGeminiWithBackoff endpoint).result = some body ∧
        body.candidates = some (Candidate.wellFormed t :: rest) ∧
        answer = t) := by
  rw [query_char embed endpoint st q idx hattr hlen hN]
  refine ⟨?_, ?_, ?_⟩
  · intro hbr
    simp [generationOutcome, hbr]
  · intro body hbr hct
    cases hc : body.candidates with
    | none => simp [generationOutcome, hbr, hc]
    | some cs =>
      cases cs with
      | nil => simp [generationOutcome, hbr, hc]
      | cons c rest => simp [candTruthy, hc] at hct
  · intro answer sources hq hs
    cases hbr : (callGeminiWithBackoff endpoint).result with
    | none =>
      simp [generationOutcome, hbr] at hq
      exact absurd hq.2 hs
    | some body =>
      cases hc : body.candidates with
      | none =>
        simp [generationOutcome, hbr, hc] at hq
        exact absurd hq.2 hs
      | some cs =>
        cases cs with
        | nil =>
          simp [generationOutcome, hbr, hc] at hq
          exact absurd hq.2 hs
        | cons c rest =>
          cases c with
          | wellFormed t =>
            simp [generationOutcome, hbr, hc] at hq
            exact ⟨body, t, rest, rfl, hc, hq.1.symm⟩
          | malformed =>
            simp [generationOutcome, hbr, hc] at hq
            exact absurd hq.2 hs

/-- Witness for C9 against an endpoint whose every attempt fails, so the
backoff returns `None` and the retrieved source is discarded. -/
theorem generationFailureDiscardsSourcesWitness :
    (query (fun _ => [0]) (fun _ => HttpResult.networkError)
        ⟨["A"], some (some ⟨[[0]]⟩), ⟨["a.txt"], fun _ => "A"⟩⟩ "q").result =
      Except.ok (invalidResponseMsg, []) :=
  (generationFailureDiscardsSources (fun _ => [0])
      (fun _ => HttpResult.networkError)
      ⟨["A"], some (some ⟨[[0]]⟩), ⟨["a.txt"], fun _ => "A"⟩⟩ "q" ⟨[[0]]⟩
      rfl rfl (by decide)).1 rfl

/-- Claim C10: the source ids are recomputed from the current directory
listing at every retrieval — two states with an identical index and
document list but different directory contents return identical chunks yet
different source ids. -/
theorem sourcesRecomputedFromDirectory :
    ∃ (docs : List String) (ia : Option (Option FaissIndex))
      (fs1 fs2 : FileSystem) (embed : String → Vec) (q : String)
      (chunks s1 s2 : List String),
      fs1.listing ≠ fs2.listing ∧
      retrieveContext embed ⟨docs, ia, fs1⟩ q 1 = Except.ok (chunks, s1) ∧
      retrieveContext embed ⟨docs, ia, fs2⟩ q 1 = Except.ok (chunks, s2) ∧
      s1 ≠ s2 := by
  refine ⟨["A", "B"], some (some ⟨[[0], [1]]⟩),
    ⟨["x.txt", "y.txt"], fun _ => ""⟩, ⟨["p.txt", "q.txt"], fun _ => ""⟩,
    fun _ => [1], "q", ["B"], ["y.txt"], ["q.txt"], ?_, rfl, rfl, ?_⟩
  · decide
  · decide

end RAGPipeline
